import Mathlib

/-!
Verification of the consola-rs logging core against its specification.

The Rust sources are shallowly embedded:
* `levels.rs` — numeric log levels (i16 modelled as `Int`) and the built-in
  type registry (the default table; `register_type` is not exercised here);
* `record.rs` — `ArgValue`, `LogRecord` and its constructors, `build_message`;
* `throttling.rs` — `ThrottleConfig`, `ThrottleState`, `Throttler::fingerprint`,
  `Throttler::on_record`, `Throttler::flush_inner`, `Throttler::flush`;
* `lib.rs` / `reporter.rs` — the two `Logger` variants (level filter, pause
  queue, throttler dispatch, pause/resume/flush);
* `error_chain.rs` — `collect_chain` with address-identity cycle protection.

Modelling conventions:
* `Instant` is a timestamp in milliseconds (`Nat`); `Duration` likewise.
  Rust's saturating `Instant::duration_since` matches `Nat` subtraction.
* blake3 is modelled as an injective function of the byte stream fed to the
  hasher: a fingerprint is the concatenated list of hashed bytes (strings
  contribute their characters' code points).  Fingerprint (in)equality is
  stream (in)equality.
* `ArgValue::Number(f64)` appears in the core only through its rendered
  decimal text (`Display` and `{:?}` agree on the digits), so the variant
  carries that rendering.
* State-passing replaces `&mut self`; emission callbacks become returned
  lists of emitted records, in emission order.
* The throttler's `count` and the record's `repetition_count` are `u32` in
  Rust; they are modelled as `Nat` with the one arithmetic operation on
  them — the `count += 1` in `on_record` — taken modulo `2 ^ 32`
  (release-build wrapping semantics; a debug build would panic instead).
-/

/-- Numeric log level (Rust `LogLevel(pub i16)` from `levels.rs`). -/
abbrev LogLevel := Int

namespace LogLevel

def SILENT : LogLevel := -99

def FATAL : LogLevel := 0

def ERROR : LogLevel := 1

def WARN : LogLevel := 2

def LOG : LogLevel := 3

def INFO : LogLevel := 4

def SUCCESS : LogLevel := 5

def DEBUG : LogLevel := 6

def TRACE : LogLevel := 7

def VERBOSE : LogLevel := 99

end LogLevel

/-- The built-in type registry contents (`TYPE_REGISTRY` in `levels.rs`,
identical table in `lib.rs`). `register_type` is not exercised by the claims,
so the registry is modelled in its initial state. -/
def defaultRegistry : List (String × LogLevel) :=
  [("silent", LogLevel.SILENT),
   ("fatal", LogLevel.FATAL),
   ("error", LogLevel.ERROR),
   ("warn", LogLevel.WARN),
   ("log", LogLevel.LOG),
   ("info", LogLevel.INFO),
   ("success", LogLevel.SUCCESS),
   ("fail", LogLevel.SUCCESS),
   ("ready", LogLevel.INFO),
   ("start", LogLevel.LOG),
   ("box", LogLevel.LOG),
   ("debug", LogLevel.DEBUG),
   ("trace", LogLevel.TRACE),
   ("verbose", LogLevel.VERBOSE)]

/-- `level_for_type` (`levels.rs`): first registry entry with a matching name. -/
def levelForType (name : String) : Option LogLevel :=
  (defaultRegistry.find? (fun p => p.fst = name)).map Prod.snd

/-- `ArgValue` (`record.rs`). The `number` variant carries the decimal
rendering of the `f64` (the core reads the number only through `Display`
and `{:?}`, which both print those digits). The `json` variant is behind a
non-default cargo feature and is omitted. -/
inductive ArgValue where
  | string (s : String)
  | number (rendered : String)
  | bool (b : Bool)
  | error (s : String)
  | otherDebug (s : String)
deriving DecidableEq, Repr

/-- `impl Display for ArgValue` (`record.rs`). -/
def ArgValue.display : ArgValue → String
  | .string s => s
  | .number r => r
  | .bool b => if b then "true" else "false"
  | .error e => e
  | .otherDebug d => d

/-- Rust `char` debug-escaping as used by `Debug for String`
(`char::escape_debug`): backslash, quote and the common control characters
get two-character escapes; other characters print themselves. -/
def escapeDebugChar (c : Char) : String :=
  if c = '\\' then "\\\\"
  else if c = '"' then "\\\""
  else if c = '\n' then "\\n"
  else if c = '\r' then "\\r"
  else if c = '\t' then "\\t"
  else String.singleton c

/-- Debug rendering of a Rust `String`: quoted and escaped. -/
def debugQuoted (s : String) : String :=
  "\"" ++ String.join (s.data.map escapeDebugChar) ++ "\""

/-- `format!("{a:?}")` for `ArgValue` — the derived `Debug` implementation:
`Variant(field)` with string fields quoted. Used by `Throttler::fingerprint`. -/
def ArgValue.debugRender : ArgValue → String
  | .string s => "String(" ++ debugQuoted s ++ ")"
  | .number r => "Number(" ++ r ++ ")"
  | .bool b => "Bool(" ++ (if b then "true" else "false") ++ ")"
  | .error s => "Error(" ++ debugQuoted s ++ ")"
  | .otherDebug s => "OtherDebug(" ++ debugQuoted s ++ ")"

/-- `build_message` (`record.rs`): `None` when there are no args, otherwise
the space-joined `Display` of all args. -/
def buildMessage (args : List ArgValue) : Option String :=
  match args with
  | [] => none
  | _ => some (String.intercalate " " (args.map ArgValue.display))

/-- `LogRecord` (`record.rs`). `timestamp` is milliseconds (`Instant`);
`repetition_count` is a `u32`: it is modelled as `Nat`, and every value
written to it (0 and 1 in the constructors, the throttler's wrapped
counter in `on_record`) is below `2 ^ 32`. -/
structure LogRecord where
  timestamp : Nat
  level : LogLevel
  type_name : String
  tag : Option String
  args : List ArgValue
  message : Option String
  repetition_count : Nat
  additional : Option (List ArgValue)
  meta : Option (List (String × ArgValue))
  stack : Option (List String)
  is_raw : Bool
  error_chain : Option (List String)
deriving DecidableEq, Repr

/-- `LogRecord::new_with_timestamp` (`record.rs`). -/
def LogRecord.newWithTimestamp (type_name : String) (tag : Option String)
    (args : List ArgValue) (timestamp : Nat) : LogRecord :=
  { timestamp := timestamp
    level := (levelForType type_name).getD LogLevel.LOG
    type_name := type_name
    tag := tag
    args := args
    message := buildMessage args
    repetition_count := 0
    additional := none
    meta := none
    stack := none
    is_raw := false
    error_chain := none }

/-- `LogRecord::raw` (`record.rs`): empty args, pre-composed message,
`is_raw = true`. -/
def LogRecord.raw (type_name : String) (tag : Option String)
    (message : String) (timestamp : Nat) : LogRecord :=
  { timestamp := timestamp
    level := (levelForType type_name).getD LogLevel.LOG
    type_name := type_name
    tag := tag
    args := []
    message := some message
    repetition_count := 0
    additional := none
    meta := none
    stack := none
    is_raw := true
    error_chain := none }

/-- Byte stream contributed by a string to the fingerprint hasher
(code points stand in for UTF-8 bytes; the encoding is injective). -/
def strBytes (s : String) : List Nat :=
  s.data.map Char.toNat

/-- `i16::to_le_bytes` of the level (`record.level.0.to_le_bytes()`),
two's complement, low byte first. -/
def levelLeBytes (level : LogLevel) : List Nat :=
  let u := (level % 65536).toNat
  [u % 256, u / 256]

/-- `Throttler::fingerprint` (`throttling.rs`): blake3 over, in order,
`type_name`, the tag if present, the level's little-endian bytes, the
message if present, and `format!("{a:?}")` for each arg. blake3 itself is
modelled as injective, so the fingerprint is the hashed stream. -/
def Throttler.fingerprint (record : LogRecord) : List Nat :=
  strBytes record.type_name
    ++ (match record.tag with | some tag => strBytes tag | none => [])
    ++ levelLeBytes record.level
    ++ (match record.message with | some msg => strBytes msg | none => [])
    ++ List.flatten (record.args.map (fun a => strBytes a.debugRender))

/-- `ThrottleConfig` (`throttling.rs`); `window` in milliseconds. -/
structure ThrottleConfig where
  window : Nat
  min_count : Nat
deriving DecidableEq, Repr

/-- `ThrottleConfig::default()`: 500 ms window, `min_count = 2`. -/
def ThrottleConfig.default : ThrottleConfig :=
  { window := 500, min_count := 2 }

/-- `ThrottleState` (`throttling.rs`). `count` is a `u32`: modelled as
`Nat`, with its only increment (in `on_record`) taken modulo `2 ^ 32`, so
it wraps exactly as the release-build Rust counter does. -/
structure ThrottleState where
  current_fp : Option (List Nat)
  first_time : Option Nat
  count : Nat
  stored : Option LogRecord
  emitted : Bool
deriving DecidableEq, Repr

/-- `ThrottleState::new()` / `reset()`. -/
def ThrottleState.init : ThrottleState :=
  { current_fp := none, first_time := none, count := 0,
    stored := none, emitted := false }

/-- `Throttler::flush_inner` (`throttling.rs`): if a record is stored and
`forced && (count > 1 || !emitted)`, emit it; then reset the state.
Returns the new state and the emitted records. -/
def flushInner (forced : Bool) (st : ThrottleState) :
    ThrottleState × List LogRecord :=
  let ems :=
    match st.stored with
    | some stored =>
        if forced && (decide (1 < st.count) || !st.emitted) then [stored] else []
    | none => []
  (ThrottleState.init, ems)

/-- The window-expiry test at the top of `Throttler::on_record`:
`now.duration_since(first) > window && count > 0` (saturating subtraction). -/
def throttleExpired (cfg : ThrottleConfig) (st : ThrottleState) (now : Nat) : Bool :=
  match st.current_fp, st.first_time with
  | some _, some first => decide (cfg.window < now - first) && decide (0 < st.count)
  | _, _ => false

/-- The tail of `Throttler::on_record`: arm a fresh group for `record`
(count 1, `repetition_count := 1`) and emit the stored copy. -/
def armNew (record : LogRecord) (fp : List Nat) (now : Nat) :
    ThrottleState × List LogRecord :=
  let stored := { record with repetition_count := 1 }
  ({ current_fp := some fp, first_time := some now, count := 1,
     stored := some stored, emitted := true }, [stored])

/-- `Throttler::on_record` (`throttling.rs`). Emissions are returned in the
order the Rust code invokes the `emit` callback. The `count += 1` is a
`u32` increment and wraps modulo `2 ^ 32` (release-build semantics), so
after `2 ^ 32` consecutive equal-fingerprint records the counter — and the
`repetition_count` mirrored into the stored record — reaches 0 again. -/
def onRecord (cfg : ThrottleConfig) (st : ThrottleState) (record : LogRecord) :
    ThrottleState × List LogRecord :=
  let fp := Throttler.fingerprint record
  let now := record.timestamp
  let p := if throttleExpired cfg st now then flushInner true st else (st, [])
  let st1 := p.1
  let ems0 := p.2
  match st1.current_fp with
  | some current =>
      if current = fp then
        let count := (st1.count + 1) % 2 ^ 32
        let stored1 := st1.stored.map (fun s => { s with repetition_count := count })
        if count = cfg.min_count then
          ({ st1 with count := count, stored := stored1, emitted := true },
           ems0 ++ stored1.toList)
        else
          ({ st1 with count := count, stored := stored1 }, ems0)
      else
        let q := flushInner true st1
        let a := armNew record fp now
        (a.1, ems0 ++ q.2 ++ a.2)
  | none =>
      let a := armNew record fp now
      (a.1, ems0 ++ a.2)

/-- One throttler operation: `on_record` with a given record, or `flush`. -/
inductive ThrottleOp where
  | record (r : LogRecord)
  | flush
deriving DecidableEq, Repr

/-- Dispatch one operation (`Throttler::flush` is `flush_inner(true, ...)`). -/
def throttleStep (cfg : ThrottleConfig) (st : ThrottleState) :
    ThrottleOp → ThrottleState × List LogRecord
  | .record r => onRecord cfg st r
  | .flush => flushInner true st

/-- Run a sequence of throttler operations, concatenating emissions. -/
def runThrottle (cfg : ThrottleConfig) (st : ThrottleState) :
    List ThrottleOp → ThrottleState × List LogRecord
  | [] => (st, [])
  | op :: ops =>
      let p := throttleStep cfg st op
      let q := runThrottle cfg p.1 ops
      (q.1, p.2 ++ q.2)

/-- Count of `on_record` operations in a sequence. -/
def recordOpCount (ops : List ThrottleOp) : Nat :=
  ops.countP (fun op => match op with | .record _ => true | .flush => false)

/-- An `info` record with message `z` at time `t` (the shape built by the
repo test helper `rec_at`). -/
def recZ (t : Nat) : LogRecord :=
  LogRecord.newWithTimestamp "info" none [ArgValue.string "z"] t

/-- The C1 scenario: `min_count = 2`, two equal records at t=0 and t=10 ms,
then a manual flush. -/
def dupFlushOps : List ThrottleOp :=
  [.record (recZ 0), .record (recZ 10), .flush]

/-- An `info` record with message `y` at time `t`. -/
def recY (t : Nat) : LogRecord :=
  LogRecord.newWithTimestamp "info" none [ArgValue.string "y"] t

/-- The C6 scenario: window 100 ms, `min_count = 5`, equal records at
t=0, t=10 and t=150 ms. -/
def expiryOps : List ThrottleOp :=
  [.record (recY 0), .record (recY 10), .record (recY 150)]

/-- Invariant: any record stored by the throttler has `repetition_count ≥ 1`. -/
def StoredRepOk (st : ThrottleState) : Prop :=
  ∀ s, st.stored = some s → 1 ≤ s.repetition_count

/-- The configuration that exposes the `u32` wrap: `min_count = 0` is a
constructible `ThrottleConfig` (both fields are public), and the counter
reaches 0 again only by wrapping. -/
def wrapCfg : ThrottleConfig :=
  { window := 0, min_count := 0 }

/-- The throttler state in the middle of one long equal-fingerprint run of
`recZ 0` records (all at t = 0): group armed on `recZ 0`, counter `c`. -/
def wrapGroupState (c : Nat) (e : Bool) : ThrottleState :=
  { current_fp := some (Throttler.fingerprint (recZ 0)),
    first_time := some 0,
    count := c,
    stored := some { recZ 0 with repetition_count := c },
    emitted := e }

/-- `2 ^ 32` equal-fingerprint records at the same instant: the input on
which the `u32` counter wraps back to 0. -/
def wrapOps : List ThrottleOp :=
  List.replicate (2 ^ 32) (ThrottleOp.record (recZ 0))

/-- `LoggerConfig` (shared shape of `lib.rs` and `reporter.rs`): level filter,
throttle configuration, optional pause-queue capacity. The clock is modelled
by per-call timestamps carried in the operations. -/
structure LoggerConfig where
  level : LogLevel
  throttle : ThrottleConfig
  queue_capacity : Option Nat
deriving DecidableEq, Repr

/-- `Logger::passes_level` (identical in `lib.rs` and `reporter.rs`):
`record.level <= self.cfg.level`. -/
def passesLevel (cfgLevel : LogLevel) (r : LogRecord) : Bool :=
  decide (r.level ≤ cfgLevel)

/-- Logger state (both variants): configuration, throttler state, paused
flag, pause queue (front of the `VecDeque` at the head). -/
structure LoggerState where
  cfg : LoggerConfig
  thr : ThrottleState
  paused : Bool
  queue : List LogRecord
deriving DecidableEq, Repr

/-- A freshly constructed logger: not paused, empty queue, fresh throttler. -/
def LoggerState.init (cfg : LoggerConfig) : LoggerState :=
  { cfg := cfg, thr := ThrottleState.init, paused := false, queue := [] }

/-- `Logger::enqueue` (identical in both variants): if a capacity is set and
`len >= cap`, drop the oldest (front) entry, then push the record at the back. -/
def enqueue (s : LoggerState) (r : LogRecord) : LoggerState :=
  let q :=
    match s.cfg.queue_capacity with
    | some cap => if cap ≤ s.queue.length then s.queue.drop 1 else s.queue
    | none => s.queue
  { s with queue := q ++ [r] }

/-- `Logger::process_record` (identical in both variants): feed the record to
the throttler and emit everything the throttler releases, in order. -/
def processRecord (s : LoggerState) (r : LogRecord) : LoggerState × List LogRecord :=
  let p := onRecord s.cfg.throttle s.thr r
  ({ s with thr := p.1 }, p.2)

/-- One public logger operation. `log`/`logRaw` carry the clock reading for
that call (`now`); `lib.rs` has no `log_raw`. -/
inductive LogOp where
  | log (type_name : String) (tag : Option String) (args : List ArgValue) (now : Nat)
  | logRaw (type_name : String) (tag : Option String) (message : String) (now : Nat)
  | pause
  | resume
  | flush
deriving DecidableEq, Repr

/-- The drain loop inside `resume` (both variants): pop queued records in
FIFO order, re-apply the level filter, and process survivors through the
throttler. -/
def drainGo (cfg : LoggerConfig) (st : ThrottleState) :
    List LogRecord → ThrottleState × List LogRecord
  | [] => (st, [])
  | r :: rest =>
      if passesLevel cfg.level r then
        let p := onRecord cfg.throttle st r
        let q := drainGo cfg p.1 rest
        (q.1, p.2 ++ q.2)
      else drainGo cfg st rest

/-- The `Logger` in `lib.rs`: `pause()` only sets the flag (no flush),
`resume()` drains without a preliminary flush, and there is no `log_raw`
(modelled as a no-op; the equivalence theorem's hypothesis excludes it). -/
def libStep (s : LoggerState) : LogOp → LoggerState × List LogRecord
  | .log tn tag args now =>
      let record := LogRecord.newWithTimestamp tn tag args now
      if !passesLevel s.cfg.level record then (s, [])
      else if s.paused then (enqueue s record, [])
      else processRecord s record
  | .logRaw _ _ _ _ => (s, [])
  | .flush =>
      let p := flushInner true s.thr
      ({ s with thr := p.1 }, p.2)
  | .pause => ({ s with paused := true }, [])
  | .resume =>
      if !s.paused then (s, [])
      else
        let p := drainGo s.cfg s.thr s.queue
        ({ s with paused := false, thr := p.1, queue := [] }, p.2)

/-- The `Logger` in `reporter.rs`: `pause()` flushes the throttler before
setting the flag (when not already paused), `resume()` flushes before
draining the queue, and `log_raw` builds a raw record through the same
filter/queue/throttle path. -/
def repStep (s : LoggerState) : LogOp → LoggerState × List LogRecord
  | .log tn tag args now =>
      let record := LogRecord.newWithTimestamp tn tag args now
      if !passesLevel s.cfg.level record then (s, [])
      else if s.paused then (enqueue s record, [])
      else processRecord s record
  | .logRaw tn tag msg now =>
      let record := LogRecord.raw tn tag msg now
      if !passesLevel s.cfg.level record then (s, [])
      else if s.paused then (enqueue s record, [])
      else processRecord s record
  | .flush =>
      let p := flushInner true s.thr
      ({ s with thr := p.1 }, p.2)
  | .pause =>
      if s.paused then (s, [])
      else
        let p := flushInner true s.thr
        ({ s with thr := p.1, paused := true }, p.2)
  | .resume =>
      if !s.paused then (s, [])
      else
        let p := flushInner true s.thr
        let q := drainGo s.cfg p.1 s.queue
        ({ s with paused := false, thr := q.1, queue := [] }, p.2 ++ q.2)

/-- Run a logger (given its step function) over an operation sequence,
concatenating the records handed to the reporter. -/
def runLogger (step : LoggerState → LogOp → LoggerState × List LogRecord)
    (s : LoggerState) : List LogOp → LoggerState × List LogRecord
  | [] => (s, [])
  | op :: ops =>
      let p := step s op
      let q := runLogger step p.1 ops
      (q.1, p.2 ++ q.2)

/-- `true` exactly for the operations `lib.rs` and `reporter.rs` implement
identically (`log` and `flush`). -/
def isLogOrFlush : LogOp → Bool
  | .log _ _ _ _ => true
  | .flush => true
  | _ => false

/-- A record of the built-in type `silent` (level −99). -/
def silentRec : LogRecord :=
  LogRecord.newWithTimestamp "silent" none [ArgValue.string "x"] 0

/-- Level VERBOSE, throttle `min_count = 5` / 500 ms, unbounded queue. -/
def cfg5 : LoggerConfig :=
  { level := LogLevel.VERBOSE,
    throttle := { window := 500, min_count := 5 },
    queue_capacity := none }

/-- Two equal records then `pause()`. -/
def pauseOps : List LogOp :=
  [.log "info" none [ArgValue.string "z"] 0,
   .log "info" none [ArgValue.string "z"] 10,
   .pause]

/-- Level VERBOSE, default throttle, queue capacity 3. -/
def cfgQ3 : LoggerConfig :=
  { level := LogLevel.VERBOSE,
    throttle := ThrottleConfig.default,
    queue_capacity := some 3 }

/-- Pause, log M1..M5, resume (the C7 scenario, on the `reporter.rs`
Logger whose `enqueue`/`resume` the claim cites). -/
def overflowOps : List LogOp :=
  [.pause,
   .log "info" none [ArgValue.string "M1"] 0,
   .log "info" none [ArgValue.string "M2"] 1,
   .log "info" none [ArgValue.string "M3"] 2,
   .log "info" none [ArgValue.string "M4"] 3,
   .log "info" none [ArgValue.string "M5"] 4,
   .resume]

/-- A `dyn Error` object for `collect_chain` (`error_chain.rs`): its address
(the `usize` obtained from the trait-object pointer), its `to_string()`
rendering, and the address its `source()` points to, if any. A program's
error objects form a finite heap; `source` edges may form cycles. -/
structure ErrObj where
  addr : Nat
  msg : String
  src : Option Nat
deriving DecidableEq, Repr

/-- Dereference an address in the error heap. -/
def lookupErr (heap : List ErrObj) (a : Nat) : Option ErrObj :=
  heap.find? (fun o => o.addr = a)

/-- The loop of `collect_chain` (`error_chain.rs`): while the cursor is
`Some`, stop if the address was already seen (`!seen.insert(ptr)`),
otherwise record `(address, e.to_string())` and follow `e.source()`.
The recursion is well-founded: each step visits an address of the finite
heap not seen before. -/
def chainGo (heap : List ErrObj) (seen : List Nat) (cur : Option Nat) :
    List (Nat × String) :=
  match cur with
  | none => []
  | some a =>
      if hseen : a ∈ seen then []
      else
        match hfind : lookupErr heap a with
        | none => []
        | some o => (a, o.msg) :: chainGo heap (a :: seen) o.src
termination_by ((heap.map ErrObj.addr).filter (fun x => decide (x ∉ seen))).length
decreasing_by
  have ho : o ∈ heap ∧ o.addr = a := by
    refine ⟨List.mem_of_find?_eq_some hfind, ?_⟩
    have := List.find?_some hfind
    simpa using this
  have hal : a ∈ heap.map ErrObj.addr := by
    rw [← ho.2]
    exact List.mem_map_of_mem ErrObj.addr ho.1
  have hsub : List.Sublist
      ((heap.map ErrObj.addr).filter (fun x => decide (x ∉ (a :: seen))))
      ((heap.map ErrObj.addr).filter (fun x => decide (x ∉ seen))) := by
    apply List.monotone_filter_right
    intro x hx
    simp only [decide_eq_true_eq, List.mem_cons, not_or] at hx ⊢
    exact hx.2
  have hmem : a ∈ (heap.map ErrObj.addr).filter (fun x => decide (x ∉ seen)) := by
    simp [List.mem_filter, hal, hseen]
  have hnmem : a ∉ (heap.map ErrObj.addr).filter
      (fun x => decide (x ∉ (a :: seen))) := by
    simp [List.mem_filter]
  refine Nat.lt_of_le_of_ne (List.Sublist.length_le hsub) (fun heq => ?_)
  rw [List.Sublist.eq_of_length hsub heq] at hnmem
  exact hnmem hmem

/-- `collect_chain` (`error_chain.rs`): the vector of `to_string()`
renderings along the source walk starting at the error at address `a0`. -/
def collect_chain (heap : List ErrObj) (a0 : Nat) : List String :=
  (chainGo heap [] (some a0)).map Prod.snd

example : levelForType "info" = some 4 := by decide

example : levelForType "silent" = some (-99) := by decide

example : buildMessage [ArgValue.string "hello", ArgValue.number "5"] = some "hello 5" := by decide

theorem strBytes_debugRender_ne_nil (a : ArgValue) : strBytes a.debugRender ≠ [] := by
  cases a <;> simp [ArgValue.debugRender, strBytes, String.data_append, debugQuoted]

/-- Unfolding of the fingerprint of a raw record (no args contribute). -/
theorem fingerprint_raw_eq (tn : String) (tag : Option String) (m : String) (t : Nat) :
    Throttler.fingerprint (LogRecord.raw tn tag m t) =
    strBytes tn ++ (match tag with | some tg => strBytes tg | none => [])
      ++ levelLeBytes ((levelForType tn).getD LogLevel.LOG)
      ++ strBytes m ++ [] := rfl

/-- Unfolding of the fingerprint of a formatted record. -/
theorem fingerprint_newWithTimestamp_eq (tn : String) (tag : Option String)
    (args : List ArgValue) (t : Nat) :
    Throttler.fingerprint (LogRecord.newWithTimestamp tn tag args t) =
    strBytes tn ++ (match tag with | some tg => strBytes tg | none => [])
      ++ levelLeBytes ((levelForType tn).getD LogLevel.LOG)
      ++ (match buildMessage args with | some msg => strBytes msg | none => [])
      ++ List.flatten (args.map (fun a => strBytes a.debugRender)) := rfl

/-- Claim C8: a raw record (`is_raw = true`, empty args, pre-composed
message `m`) and a formatted record with non-empty args whose derived
message equals `m` and whose type name, tag and level match never share a
fingerprint: the formatted record's args contribute extra non-empty bytes
to the hashed stream, so the two are never coalesced into one group. -/
theorem fingerprint_raw_ne_formatted (tn : String) (tag : Option String) (m : String)
    (args : List ArgValue) (t1 t2 : Nat)
    (hargs : args ≠ []) (hm : buildMessage args = some m) :
    Throttler.fingerprint (LogRecord.raw tn tag m t1) ≠
    Throttler.fingerprint (LogRecord.newWithTimestamp tn tag args t2) := by
  intro h
  rw [fingerprint_raw_eq, fingerprint_newWithTimestamp_eq, hm] at h
  have hlen := congrArg List.length h
  simp only [List.length_append] at hlen
  obtain ⟨a, rest, rfl⟩ := List.exists_cons_of_ne_nil hargs
  have hne := strBytes_debugRender_ne_nil a
  have hpos : 0 < (strBytes a.debugRender).length := List.length_pos.mpr hne
  simp only [List.map_cons, List.flatten_cons, List.length_append, List.length_nil] at hlen
  omega

theorem storedRepOk_init : StoredRepOk ThrottleState.init := by
  intro s h
  simp [ThrottleState.init] at h

theorem flushInner_fst (forced : Bool) (st : ThrottleState) :
    (flushInner forced st).1 = ThrottleState.init := rfl

theorem mem_flushInner_snd {forced : Bool} {st : ThrottleState} {r : LogRecord}
    (h : r ∈ (flushInner forced st).2) : st.stored = some r := by
  rcases hst : st.stored with _ | s
  · simp [flushInner, hst] at h
  · simp [flushInner, hst] at h
    rw [h.2]

theorem flushInner_repOk (forced : Bool) {st : ThrottleState} (h : StoredRepOk st) :
    (∀ r ∈ (flushInner forced st).2, 1 ≤ r.repetition_count) ∧
    StoredRepOk (flushInner forced st).1 := by
  constructor
  · intro r hr
    exact h r (mem_flushInner_snd hr)
  · rw [flushInner_fst]
    exact storedRepOk_init

theorem armNew_repOk (record : LogRecord) (fp : List Nat) (now : Nat) :
    (∀ r ∈ (armNew record fp now).2, 1 ≤ r.repetition_count) ∧
    StoredRepOk (armNew record fp now).1 := by
  constructor
  · intro r hr
    simp [armNew] at hr
    subst hr
    exact Nat.le_refl 1
  · intro s hs
    simp [armNew] at hs
    subst hs
    exact Nat.le_refl 1

/-- `on_record` when the active window has expired: force-flush the current
group, then (state now empty) arm a fresh group for the record. -/
theorem onRecord_expired (cfg : ThrottleConfig) (st : ThrottleState) (record : LogRecord)
    (hexp : throttleExpired cfg st record.timestamp = true) :
    onRecord cfg st record =
      ((armNew record (Throttler.fingerprint record) record.timestamp).1,
       (flushInner true st).2 ++
         (armNew record (Throttler.fingerprint record) record.timestamp).2) := by
  simp only [onRecord, hexp, if_true, flushInner_fst, ThrottleState.init]

/-- `on_record` on an empty throttler (window not expired): arm a fresh
group and emit its first record. -/
theorem onRecord_new (cfg : ThrottleConfig) (st : ThrottleState) (record : LogRecord)
    (hfp : st.current_fp = none)
    (hexp : throttleExpired cfg st record.timestamp = false) :
    onRecord cfg st record =
      ((armNew record (Throttler.fingerprint record) record.timestamp).1,
       (armNew record (Throttler.fingerprint record) record.timestamp).2) := by
  simp only [onRecord, hexp, Bool.false_eq_true, if_false, hfp, List.nil_append]

/-- `on_record` on a record whose fingerprint differs from the armed group
(window not expired): force-flush the group, then arm a fresh one. -/
theorem onRecord_change (cfg : ThrottleConfig) (st : ThrottleState) (record : LogRecord)
    (current : List Nat) (hfp : st.current_fp = some current)
    (hne : current ≠ Throttler.fingerprint record)
    (hexp : throttleExpired cfg st record.timestamp = false) :
    onRecord cfg st record =
      ((armNew record (Throttler.fingerprint record) record.timestamp).1,
       (flushInner true st).2 ++
         (armNew record (Throttler.fingerprint record) record.timestamp).2) := by
  simp only [onRecord, hexp, Bool.false_eq_true, if_false, hfp, if_neg hne,
    List.nil_append]

/-- `on_record` on a record whose fingerprint matches the armed group, with
the window not expired: increment the `u32` counter (wrapping), mirror it
into the stored record, and emit the stored record iff the wrapped counter
equals `min_count`. -/
theorem onRecord_repeat (cfg : ThrottleConfig) (st : ThrottleState) (record : LogRecord)
    (hfp : st.current_fp = some (Throttler.fingerprint record))
    (hexp : throttleExpired cfg st record.timestamp = false) :
    onRecord cfg st record =
      (if (st.count + 1) % 2 ^ 32 = cfg.min_count then
        ({ st with
            count := (st.count + 1) % 2 ^ 32,
            stored := st.stored.map
              (fun s => { s with repetition_count := (st.count + 1) % 2 ^ 32 }),
            emitted := true },
         (st.stored.map
            (fun s => { s with repetition_count := (st.count + 1) % 2 ^ 32 })).toList)
      else
        ({ st with
            count := (st.count + 1) % 2 ^ 32,
            stored := st.stored.map
              (fun s => { s with repetition_count := (st.count + 1) % 2 ^ 32 }) },
         [])) := by
  simp only [onRecord, hexp, Bool.false_eq_true, if_false, hfp, if_pos rfl,
    if_true, List.nil_append]

theorem onRecord_repOk (cfg : ThrottleConfig) (st : ThrottleState) (record : LogRecord)
    (n : Nat) (h : StoredRepOk st) (hc : st.count ≤ n) (hn : n + 1 < 2 ^ 32) :
    (∀ r ∈ (onRecord cfg st record).2, 1 ≤ r.repetition_count) ∧
    StoredRepOk (onRecord cfg st record).1 ∧
    (onRecord cfg st record).1.count ≤ n + 1 := by
  by_cases hexp : throttleExpired cfg st record.timestamp
  · rw [onRecord_expired cfg st record hexp]
    refine ⟨?_, (armNew_repOk record _ _).2, Nat.succ_le_succ (Nat.zero_le n)⟩
    intro r hr
    rcases List.mem_append.mp hr with hr | hr
    · exact (flushInner_repOk true h).1 r hr
    · exact (armNew_repOk record _ _).1 r hr
  · have hexp' : throttleExpired cfg st record.timestamp = false := by
      simpa using hexp
    rcases hfp : st.current_fp with _ | current
    · rw [onRecord_new cfg st record hfp hexp']
      refine ⟨?_, (armNew_repOk record _ _).2, Nat.succ_le_succ (Nat.zero_le n)⟩
      intro r hr
      exact (armNew_repOk record _ _).1 r hr
    · by_cases heq : current = Throttler.fingerprint record
      · subst heq
        rw [onRecord_repeat cfg st record hfp hexp']
        have hmod : (st.count + 1) % 2 ^ 32 = st.count + 1 :=
          Nat.mod_eq_of_lt (by omega)
        by_cases hcm : (st.count + 1) % 2 ^ 32 = cfg.min_count
        · rw [if_pos hcm]
          refine ⟨?_, ?_, ?_⟩
          · intro r hr
            rcases hst : st.stored with _ | s <;> rw [hst] at hr <;> simp at hr
            subst hr
            show 1 ≤ (st.count + 1) % 2 ^ 32
            omega
          · intro s hs
            have hs' : st.stored.map
                (fun s => { s with repetition_count := (st.count + 1) % 2 ^ 32 }) =
                some s := hs
            rcases Option.map_eq_some'.mp hs' with ⟨a, _, rfl⟩
            show 1 ≤ (st.count + 1) % 2 ^ 32
            omega
          · show (st.count + 1) % 2 ^ 32 ≤ n + 1
            omega
        · rw [if_neg hcm]
          refine ⟨?_, ?_, ?_⟩
          · intro r hr
            simp at hr
          · intro s hs
            have hs' : st.stored.map
                (fun s => { s with repetition_count := (st.count + 1) % 2 ^ 32 }) =
                some s := hs
            rcases Option.map_eq_some'.mp hs' with ⟨a, _, rfl⟩
            show 1 ≤ (st.count + 1) % 2 ^ 32
            omega
          · show (st.count + 1) % 2 ^ 32 ≤ n + 1
            omega
      · rw [onRecord_change cfg st record current hfp heq hexp']
        refine ⟨?_, (armNew_repOk record _ _).2, Nat.succ_le_succ (Nat.zero_le n)⟩
        intro r hr
        rcases List.mem_append.mp hr with hr | hr
        · exact (flushInner_repOk true h).1 r hr
        · exact (armNew_repOk record _ _).1 r hr


theorem runThrottle_repOk (cfg : ThrottleConfig) (ops : List ThrottleOp) :
    ∀ (st : ThrottleState) (n : Nat), StoredRepOk st → st.count ≤ n →
    n + recordOpCount ops < 2 ^ 32 →
    ∀ r ∈ (runThrottle cfg st ops).2, 1 ≤ r.repetition_count := by
  induction ops with
  | nil =>
      intro st n _ _ _ r hr
      simp [runThrottle] at hr
  | cons op ops ih =>
      intro st n h hc hn r hr
      rw [runThrottle] at hr
      cases op with
      | record rec =>
          have hcount : recordOpCount (ThrottleOp.record rec :: ops) =
              recordOpCount ops + 1 := by
            simp [recordOpCount]
          rw [hcount] at hn
          have hstep := onRecord_repOk cfg st rec n h hc (by omega)
          rcases List.mem_append.mp hr with hr | hr
          · exact hstep.1 r hr
          · exact ih (onRecord cfg st rec).1 (n + 1) hstep.2.1 hstep.2.2
              (by omega) r hr
      | flush =>
          have hcount : recordOpCount (ThrottleOp.flush :: ops) = recordOpCount ops := by
            simp [recordOpCount]
          rw [hcount] at hn
          rcases List.mem_append.mp hr with hr | hr
          · exact (flushInner_repOk true h).1 r hr
          · refine ih (flushInner true st).1 n (flushInner_repOk true h).2 ?_ hn r hr
            rw [flushInner_fst]
            exact Nat.zero_le n

/-- Decomposing a run over a concatenation of operation lists. -/
theorem runThrottle_append (cfg : ThrottleConfig) (st : ThrottleState)
    (l1 l2 : List ThrottleOp) :
    runThrottle cfg st (l1 ++ l2) =
      ((runThrottle cfg (runThrottle cfg st l1).1 l2).1,
       (runThrottle cfg st l1).2 ++ (runThrottle cfg (runThrottle cfg st l1).1 l2).2) := by
  induction l1 generalizing st with
  | nil => simp [runThrottle]
  | cons op l1 ih =>
      simp only [List.cons_append, runThrottle, List.append_eq]
      rw [ih]
      simp [List.append_assoc]

/-- One step of the long equal-fingerprint run: the counter advances to
`(c + 1) % 2 ^ 32`, and the stored record (with that wrapped count) is
emitted exactly when the counter hits `min_count = 0`, i.e. on the wrap. -/
theorem onRecord_wrapGroup (c : Nat) (e : Bool) :
    onRecord wrapCfg (wrapGroupState c e) (recZ 0) =
      (if (c + 1) % 2 ^ 32 = 0 then
        (wrapGroupState ((c + 1) % 2 ^ 32) true,
         [{ recZ 0 with repetition_count := (c + 1) % 2 ^ 32 }])
      else (wrapGroupState ((c + 1) % 2 ^ 32) e, [])) := by
  rw [onRecord_repeat wrapCfg (wrapGroupState c e) (recZ 0) rfl rfl]
  simp only [wrapGroupState, wrapCfg]
  split <;> rfl

/-- Running `n` further equal records below the wrap produces no emission
and just advances the counter. -/
theorem run_wrap_no_emit (n : Nat) :
    ∀ (c : Nat) (e : Bool), c + n < 2 ^ 32 →
    runThrottle wrapCfg (wrapGroupState c e)
      (List.replicate n (ThrottleOp.record (recZ 0))) =
    (wrapGroupState (c + n) e, []) := by
  induction n with
  | zero =>
      intro c e _
      simp [runThrottle]
  | succ n ih =>
      intro c e h
      rw [List.replicate_succ]
      rw [runThrottle]
      simp only [throttleStep]
      rw [onRecord_wrapGroup]
      have hmod : (c + 1) % 2 ^ 32 = c + 1 := Nat.mod_eq_of_lt (by omega)
      rw [if_neg (by omega : ¬ (c + 1) % 2 ^ 32 = 0), hmod]
      rw [ih (c + 1) e (by omega)]
      simp [Nat.add_assoc, Nat.add_comm 1 n]

/-- Claim C1: with `min_count = 2`, two equal-fingerprint records at t=0 and
t=10 ms yield the first emission (count 1) and the aggregated emission
(count 2); the claim then asserts a subsequent `flush()` emits nothing more.
The code disagrees: `flush_inner`'s condition `count > 1 || !emitted` is true
(count = 2), so the flush re-emits the aggregated record a third time.
This theorem evaluates the code at the failing input: two records produce
the expected two emissions, but the trailing flush produces a third. -/
theorem claim_C1_flush_reemits_aggregated :
    ((runThrottle { window := 200, min_count := 2 } ThrottleState.init
        [.record (recZ 0), .record (recZ 10)]).2.map
      (fun r => r.repetition_count) = [1, 2]) ∧
    ((runThrottle { window := 200, min_count := 2 } ThrottleState.init
        dupFlushOps).2.map
      (fun r => r.repetition_count) = [1, 2, 2]) := by decide

/-- Claim C2: "for every throttler configuration and operation sequence,
emissions ≤ `on_record` calls". The code violates this: the same
double-emit on flush after an aggregated emission yields 3 emissions from
2 `on_record` calls. This theorem evaluates the code at that failing input. -/
theorem claim_C2_emissions_can_exceed_inputs :
    (runThrottle { window := 200, min_count := 2 } ThrottleState.init
        dupFlushOps).2.length = 3 ∧
    recordOpCount dupFlushOps = 2 := by decide

/-- Claim C6: window 100 ms, `min_count = 5`, equal records at t=0, t=10 and
t=150 ms produce exactly three emissions in order — first (count 1),
aggregated for the expired group (count 2) triggered by the t=150 call, then
a fresh first emission (count 1); the first two calls alone produce only the
first emission. -/
theorem claim_C6_window_expiry :
    ((runThrottle { window := 100, min_count := 5 } ThrottleState.init
        [.record (recY 0), .record (recY 10)]).2.map
      (fun r => (r.message, r.repetition_count)) = [(some "y", 1)]) ∧
    ((runThrottle { window := 100, min_count := 5 } ThrottleState.init
        expiryOps).2.map
      (fun r => (r.message, r.repetition_count)) =
      [(some "y", 1), (some "y", 2), (some "y", 1)]) := by decide

/-- Claim C9 counterexample: the claim quantifies over every configuration
and every input sequence, but the `u32` counter wraps. With `min_count = 0`
and `2 ^ 32` equal-fingerprint records at one instant, the last increment
wraps the counter to 0, `0 = min_count` triggers the aggregated emission,
and the throttler passes a record with `repetition_count = 0` to the emit
callback — falsifying `repetition_count ≥ 1` at this concrete input. -/
theorem claim_C9_counterexample :
    ({ recZ 0 with repetition_count := 0 } ∈
      (runThrottle wrapCfg ThrottleState.init wrapOps).2) ∧
    ({ recZ 0 with repetition_count := 0 } : LogRecord).repetition_count < 1 := by
  have hsplit : wrapOps =
      [ThrottleOp.record (recZ 0)] ++
      (List.replicate (2 ^ 32 - 2) (ThrottleOp.record (recZ 0)) ++
       [ThrottleOp.record (recZ 0)]) := by
    unfold wrapOps
    conv_lhs => rw [show (2 : Nat) ^ 32 = 1 + ((2 ^ 32 - 2) + 1) by norm_num]
    rw [List.replicate_add, List.replicate_add]
    simp only [List.replicate_one]
  have h1 : runThrottle wrapCfg ThrottleState.init [ThrottleOp.record (recZ 0)] =
      (wrapGroupState 1 true, [{ recZ 0 with repetition_count := 1 }]) := by rfl
  have h2 : runThrottle wrapCfg (wrapGroupState 1 true)
      (List.replicate (2 ^ 32 - 2) (ThrottleOp.record (recZ 0))) =
      (wrapGroupState (1 + (2 ^ 32 - 2)) true, []) :=
    run_wrap_no_emit (2 ^ 32 - 2) 1 true (by norm_num)
  have h3 : runThrottle wrapCfg (wrapGroupState (1 + (2 ^ 32 - 2)) true)
      [ThrottleOp.record (recZ 0)] =
      (wrapGroupState 0 true, [{ recZ 0 with repetition_count := 0 }]) := by
    rw [runThrottle]
    simp only [throttleStep]
    rw [onRecord_wrapGroup]
    rw [if_pos (by norm_num : (1 + (2 ^ 32 - 2) + 1) % 2 ^ 32 = 0)]
    rw [show (1 + (2 ^ 32 - 2) + 1) % 2 ^ 32 = 0 by norm_num]
    simp [runThrottle]
  have hrun : (runThrottle wrapCfg ThrottleState.init wrapOps).2 =
      [{ recZ 0 with repetition_count := 1 }, { recZ 0 with repetition_count := 0 }] := by
    rw [hsplit, runThrottle_append, h1, runThrottle_append, h2, h3]
    rfl
  rw [hrun]
  exact ⟨by simp, by decide⟩

/-- Claim C9 (amended): every record the throttler passes to its emit
callback has `repetition_count ≥ 1` — even though the `LogRecord`
constructors initialize the field to 0 — for every configuration and every
sequence of `on_record` / `flush` operations with fewer than `2 ^ 32`
`on_record` calls, so that the `u32` counter cannot wrap back to 0
(`claim_C9_counterexample` shows the wrap emits `repetition_count = 0`). -/
theorem claim_C9_emitted_repetition_count_pos (cfg : ThrottleConfig)
    (ops : List ThrottleOp) (r : LogRecord)
    (hops : recordOpCount ops < 2 ^ 32)
    (h : r ∈ (runThrottle cfg ThrottleState.init ops).2) :
    1 ≤ r.repetition_count :=
  runThrottle_repOk cfg ops ThrottleState.init 0 storedRepOk_init
    (Nat.le_refl 0) (by simpa using hops) r h

theorem claim_C9_witness :
    recordOpCount [ThrottleOp.record (recZ 0)] < 2 ^ 32 ∧
    ({ recZ 0 with repetition_count := 1 } ∈
      (runThrottle ThrottleConfig.default ThrottleState.init
        [.record (recZ 0)]).2) ∧
    1 ≤ ({ recZ 0 with repetition_count := 1 } : LogRecord).repetition_count :=
  ⟨by decide, by decide,
    claim_C9_emitted_repetition_count_pos ThrottleConfig.default
      [.record (recZ 0)] { recZ 0 with repetition_count := 1 }
      (by decide) (by decide)⟩

theorem claim_C8_witness :
    ([ArgValue.string "test message"] ≠ ([] : List ArgValue)) ∧
    buildMessage [ArgValue.string "test message"] = some "test message" ∧
    Throttler.fingerprint (LogRecord.raw "info" none "test message" 0) ≠
    Throttler.fingerprint
      (LogRecord.newWithTimestamp "info" none [ArgValue.string "test message"] 10) :=
  ⟨by decide, by decide,
    fingerprint_raw_ne_formatted "info" none "test message"
      [ArgValue.string "test message"] 0 10 (by decide) (by decide)⟩

/-- Claim C3 counterexample: a SILENT-level (−99) record passes the level
filter of a logger configured at INFO, although INFO ≠ SILENT — the filter
is the plain comparison `record.level <= cfg.level` with no special case,
so the "only if" direction of the claim is false on the code. -/
theorem claim_C3_counterexample :
    passesLevel LogLevel.INFO silentRec = true ∧ LogLevel.INFO ≠ LogLevel.SILENT := by
  decide

/-- Claim C3 (amended): a record whose level is the SILENT sentinel (−99)
passes the level filter iff −99 ≤ configured level — in particular it
passes under every built-in configured level, not only SILENT; the filter
has no special case for the sentinel. -/
theorem claim_C3_silent_passes_iff (l : LogLevel) (r : LogRecord)
    (h : r.level = LogLevel.SILENT) :
    passesLevel l r = true ↔ LogLevel.SILENT ≤ l := by
  simp [passesLevel, h]

theorem claim_C3_witness :
    silentRec.level = LogLevel.SILENT ∧
    (passesLevel LogLevel.VERBOSE silentRec = true ↔
      LogLevel.SILENT ≤ LogLevel.VERBOSE) :=
  ⟨by decide, claim_C3_silent_passes_iff LogLevel.VERBOSE silentRec (by decide)⟩

/-- Claim C4 counterexample: in the `lib.rs` Logger, `pause()` does not
flush the throttler: after two equal records (count 2, only the first
emitted) and a `pause()`, still only one record has been emitted, the
logger is paused, and the throttled group (count 2) is held across the
pause — contrary to the claim. -/
theorem claim_C4_counterexample :
    ((runLogger libStep (LoggerState.init cfg5) pauseOps).2.map
      (fun r => r.repetition_count) = [1]) ∧
    (runLogger libStep (LoggerState.init cfg5) pauseOps).1.paused = true ∧
    (runLogger libStep (LoggerState.init cfg5) pauseOps).1.thr.count = 2 := by
  decide

/-- Claim C4 (amended): in the `reporter.rs` Logger, `pause()` on a
non-paused logger first flushes the throttler (emitting exactly what a
manual flush would) and then sets `paused = true`; the throttler state is
reset, so no throttled group is held across the pause. The `lib.rs` variant
instead only sets the flag. -/
theorem claim_C4_rep_pause_flushes (s : LoggerState) (h : s.paused = false) :
    (repStep s .pause).1.thr = ThrottleState.init ∧
    (repStep s .pause).1.paused = true ∧
    (repStep s .pause).2 = (flushInner true s.thr).2 := by
  simp [repStep, h, flushInner]

theorem claim_C4_witness :
    (LoggerState.init cfg5).paused = false ∧
    ((repStep (LoggerState.init cfg5) .pause).1.thr = ThrottleState.init ∧
     (repStep (LoggerState.init cfg5) .pause).1.paused = true ∧
     (repStep (LoggerState.init cfg5) .pause).2 =
       (flushInner true (LoggerState.init cfg5).thr).2) :=
  ⟨rfl, claim_C4_rep_pause_flushes (LoggerState.init cfg5) rfl⟩

/-- Claim C5 counterexample: the two Logger implementations are not
behaviorally equivalent: on the sequence ⟨log R, log R, pause⟩ with
`min_count = 5` the `reporter.rs` Logger emits two records (the pause
flushes the pending group) while the `lib.rs` Logger emits one. -/
theorem claim_C5_counterexample :
    (runLogger libStep (LoggerState.init cfg5) pauseOps).2 ≠
    (runLogger repStep (LoggerState.init cfg5) pauseOps).2 := by
  decide

/-- Claim C5 (amended): restricted to sequences of `log` and `flush`
operations, the `lib.rs` Logger and the `reporter.rs` Logger produce
identical states and identical emission sequences from any common starting
state; they diverge on `pause`/`resume`, and `lib.rs` has no `log_raw`. -/
theorem claim_C5_equiv_on_log_flush (s : LoggerState) (ops : List LogOp)
    (h : ∀ op ∈ ops, isLogOrFlush op = true) :
    runLogger libStep s ops = runLogger repStep s ops := by
  induction ops generalizing s with
  | nil => rfl
  | cons op ops ih =>
      have hop : isLogOrFlush op = true := h op (List.mem_cons_self op ops)
      have hrest : ∀ o ∈ ops, isLogOrFlush o = true :=
        fun o ho => h o (List.mem_cons_of_mem op ho)
      have hstep : libStep s op = repStep s op := by
        cases op <;> simp [isLogOrFlush] at hop <;> rfl
      simp only [runLogger]
      rw [hstep, ih _ hrest]

theorem claim_C5_witness :
    (∀ op ∈ [LogOp.log "info" none [ArgValue.string "z"] 0, LogOp.flush],
      isLogOrFlush op = true) ∧
    runLogger libStep (LoggerState.init cfg5)
      [LogOp.log "info" none [ArgValue.string "z"] 0, LogOp.flush] =
    runLogger repStep (LoggerState.init cfg5)
      [LogOp.log "info" none [ArgValue.string "z"] 0, LogOp.flush] :=
  ⟨by decide, claim_C5_equiv_on_log_flush (LoggerState.init cfg5)
    [LogOp.log "info" none [ArgValue.string "z"] 0, LogOp.flush] (by decide)⟩

/-- Claim C7: with queue capacity 3, logging M1..M5 while paused drops the
two oldest entries (front-drop on overflow), and `resume()` drains the
survivors in FIFO order: exactly M3, M4, M5 are emitted, in order, each
with repetition count 1. -/
theorem claim_C7_queue_overflow_drops_oldest :
    ((runLogger repStep (LoggerState.init cfgQ3) overflowOps).2.map
      (fun r => (r.message, r.repetition_count))) =
    [(some "M3", 1), (some "M4", 1), (some "M5", 1)] := by
  decide

theorem length_filter_not_seen_lt {l : List Nat} {seen : List Nat} {a : Nat}
    (hal : a ∈ l) (has : a ∉ seen) :
    (l.filter (fun x => decide (x ∉ (a :: seen)))).length <
    (l.filter (fun x => decide (x ∉ seen))).length := by
  have hsub : List.Sublist (l.filter (fun x => decide (x ∉ (a :: seen))))
      (l.filter (fun x => decide (x ∉ seen))) := by
    apply List.monotone_filter_right
    intro x hx
    simp only [decide_eq_true_eq, List.mem_cons, not_or] at hx ⊢
    exact hx.2
  have hmem : a ∈ l.filter (fun x => decide (x ∉ seen)) := by
    simp [List.mem_filter, hal, has]
  have hnmem : a ∉ l.filter (fun x => decide (x ∉ (a :: seen))) := by
    simp [List.mem_filter]
  refine Nat.lt_of_le_of_ne (List.Sublist.length_le hsub) (fun heq => ?_)
  rw [List.Sublist.eq_of_length hsub heq] at hnmem
  exact hnmem hmem

theorem chainGo_none (heap : List ErrObj) (seen : List Nat) :
    chainGo heap seen none = [] := by
  rw [chainGo]

theorem chainGo_seen (heap : List ErrObj) (seen : List Nat) (a : Nat)
    (h : a ∈ seen) : chainGo heap seen (some a) = [] := by
  rw [chainGo]
  simp [h]

theorem chainGo_not_found (heap : List ErrObj) (seen : List Nat) (a : Nat)
    (h : a ∉ seen) (hf : lookupErr heap a = none) :
    chainGo heap seen (some a) = [] := by
  rw [chainGo]
  rw [dif_neg h]
  split
  · rfl
  · rename_i o ho
    rw [hf] at ho
    exact absurd ho (by simp)

theorem chainGo_found (heap : List ErrObj) (seen : List Nat) (a : Nat) (o : ErrObj)
    (h : a ∉ seen) (hf : lookupErr heap a = some o) :
    chainGo heap seen (some a) = (a, o.msg) :: chainGo heap (a :: seen) o.src := by
  rw [chainGo]
  rw [dif_neg h]
  split
  · rename_i ho
    rw [hf] at ho
    exact absurd ho (by simp)
  · rename_i o2 ho
    rw [hf] at ho
    cases ho
    rfl

theorem chainGo_addrs_nodup (heap : List ErrObj) (seen : List Nat) (cur : Option Nat) :
    ((chainGo heap seen cur).map Prod.fst).Nodup ∧
    ∀ x ∈ (chainGo heap seen cur).map Prod.fst, x ∉ seen := by
  induction seen, cur using chainGo.induct heap with
  | case1 seen =>
      rw [chainGo_none]
      exact ⟨List.nodup_nil, by simp⟩
  | case2 seen a hseen =>
      rw [chainGo_seen heap seen a hseen]
      exact ⟨List.nodup_nil, by simp⟩
  | case3 seen a hseen hfind =>
      rw [chainGo_not_found heap seen a hseen hfind]
      exact ⟨List.nodup_nil, by simp⟩
  | case4 seen a hseen o hfind ih =>
      rw [chainGo_found heap seen a o hseen hfind]
      rw [List.map_cons]
      constructor
      · refine List.nodup_cons.mpr ⟨?_, ih.1⟩
        intro hmem
        exact (ih.2 a hmem) (List.mem_cons_self a seen)
      · intro x hx
        rcases List.mem_cons.mp hx with rfl | hx
        · exact hseen
        · intro hxs
          exact (ih.2 x hx) (List.mem_cons_of_mem a hxs)

theorem chainGo_length_le (heap : List ErrObj) (seen : List Nat) (cur : Option Nat) :
    (chainGo heap seen cur).length ≤
    ((heap.map ErrObj.addr).filter (fun x => decide (x ∉ seen))).length := by
  induction seen, cur using chainGo.induct heap with
  | case1 seen =>
      rw [chainGo_none]
      exact Nat.zero_le _
  | case2 seen a hseen =>
      rw [chainGo_seen heap seen a hseen]
      exact Nat.zero_le _
  | case3 seen a hseen hfind =>
      rw [chainGo_not_found heap seen a hseen hfind]
      exact Nat.zero_le _
  | case4 seen a hseen o hfind ih =>
      rw [chainGo_found heap seen a o hseen hfind]
      rw [List.length_cons]
      have ho : o ∈ heap ∧ o.addr = a := by
        refine ⟨List.mem_of_find?_eq_some hfind, ?_⟩
        have := List.find?_some hfind
        simpa using this
      have hal : a ∈ heap.map ErrObj.addr := by
        rw [← ho.2]
        exact List.mem_map_of_mem ErrObj.addr ho.1
      have hlt := length_filter_not_seen_lt hal hseen
      omega

/-- Claim C10: `collect_chain` terminates on every error heap — including
cyclic `source()` chains — which the shallow embedding witnesses by the
well-founded recursion of `chainGo` together with the bound
`|collect_chain| ≤ |heap|`; and no error object contributes two entries:
the visited addresses are pairwise distinct. -/
theorem claim_C10_chain_terminates_nodup (heap : List ErrObj) (a0 : Nat) :
    ((chainGo heap [] (some a0)).map Prod.fst).Nodup ∧
    (collect_chain heap a0).length ≤ heap.length := by
  constructor
  · exact (chainGo_addrs_nodup heap [] (some a0)).1
  · have h1 := chainGo_length_le heap [] (some a0)
    have h2 : ((heap.map ErrObj.addr).filter
        (fun x => decide (x ∉ ([] : List Nat)))).length ≤ heap.length := by
      calc ((heap.map ErrObj.addr).filter (fun x => decide (x ∉ ([] : List Nat)))).length
          ≤ (heap.map ErrObj.addr).length := List.length_filter_le _ _
        _ = heap.length := List.length_map heap ErrObj.addr
    calc (collect_chain heap a0).length
        = (chainGo heap [] (some a0)).length := List.length_map _ _
      _ ≤ _ := h1
      _ ≤ heap.length := h2
